import Mathlib

/-!
Verification of the layout-consistency engine of the pdfme text schema
(`uiRender` in `src/unnamed/part_000` and the helper layer it calls).

The repository sources in scope contain `uiRender` itself; the helper
functions it imports (`calculateDynamicFontSize`, `getFontKitFont`,
`getBrowserVerticalFontAdjustments` from `helper.js`) are not part of the
provided sources, so they are modelled from the specification, as marked
in each doc comment.
-/

set_option allowUnsafeReducibility true in
attribute [semireducible] Rat.mul Rat.add Rat.sub Rat.div Rat.blt Rat.neg Rat.inv

namespace Pdfme

/-- A glyph is identified by its character code. -/
abbrev Glyph := ℕ

/-- Modelled from the spec: `ParsedFont` is the derived, immutable result of
parsing a font binary: `unitsPerEm`, `ascent`, `descent`, `lineGap` in
font-internal units, and a glyph→advance-width mapping (represented as an
association list; glyphs absent from the font map to advance 0). -/
structure ParsedFont where
  unitsPerEm : ℚ
  ascent : ℚ
  descent : ℚ
  lineGap : ℚ
  advanceWidths : List (Glyph × ℚ)
  deriving DecidableEq, Repr

/-- The advance width (in font units) a parsed font assigns to a glyph. -/
def ParsedFont.advanceWidth (f : ParsedFont) (g : Glyph) : ℚ :=
  (f.advanceWidths.lookup g).getD 0

/-- Modelled from the spec: `LayoutBox` — width, height, lineHeightMultiplier,
characterSpacing (alignments are carried by the schema and do not enter the
solver, so they are omitted here). -/
structure LayoutBox where
  width : ℚ
  height : ℚ
  lineHeightMultiplier : ℚ
  characterSpacing : ℚ
  deriving DecidableEq, Repr

/-- Modelled from the spec: `FontSizeBounds` — min, max. Sizes are searched
over the integer range, matching the spec's brute-force-scan reading. -/
structure FontSizeBounds where
  min : ℤ
  max : ℤ
  deriving DecidableEq, Repr

/-- Modelled from the spec: `FittingResult` — chosen size, line count,
overflow flag. -/
structure FittingResult where
  fontSize : ℤ
  lineCount : ℕ
  overflow : Bool
  deriving DecidableEq, Repr

/-- Modelled from the spec: the solver's fatal error conditions —
`InvalidBoundsError` (min>max, negative dimensions) and `FontLoadError`
(corrupt/unsupported bytes). -/
inductive FitError where
  | invalidBounds : FitError
  | fontLoadError : FitError
  deriving DecidableEq, Repr

/-- Modelled from the spec (Metrics Provider): pure scaling of a font-unit
value to a font size, `scaled = fontUnitValue * fontSize / unitsPerEm`. -/
def scaledValue (fontUnitValue fontSize unitsPerEm : ℚ) : ℚ :=
  fontUnitValue * fontSize / unitsPerEm

/-- The width one glyph occupies at a given font size. -/
def glyphWidthAt (f : ParsedFont) (fontSize : ℚ) (g : Glyph) : ℚ :=
  scaledValue (f.advanceWidth g) fontSize f.unitsPerEm

/-- Modelled from the spec: greedy wrapping of the remaining glyphs at the
box width, honouring character spacing between consecutive glyphs of a
line. `cur` is the width of the current (non-empty) line, `n` the number of
lines opened so far; a glyph that does not fit opens a new line. -/
def wrapCount (widthOf : Glyph → ℚ) (cs maxW : ℚ) : List Glyph → ℚ → ℕ → ℕ
  | [], _, n => n
  | g :: gs, cur, n =>
    if cur + cs + widthOf g ≤ maxW then
      wrapCount widthOf cs maxW gs (cur + cs + widthOf g) n
    else
      wrapCount widthOf cs maxW gs (widthOf g) (n + 1)

/-- Modelled from the spec: the number of lines the text occupies when
wrapped at `box.width` at font size `S` (empty text occupies no line). -/
def lineCountAt (text : List Glyph) (f : ParsedFont) (box : LayoutBox) (S : ℚ) : ℕ :=
  match text with
  | [] => 0
  | g :: gs => wrapCount (glyphWidthAt f S) box.characterSpacing box.width gs (glyphWidthAt f S g) 1

/-- Modelled from the spec: size `S` fits when the wrapped text's total block
height `lineCount * S * lineHeightMultiplier` is at most `box.height`. -/
def fitsProp (text : List Glyph) (f : ParsedFont) (box : LayoutBox) (S : ℤ) : Prop :=
  (lineCountAt text f box (S : ℚ) : ℚ) * (S : ℚ) * box.lineHeightMultiplier ≤ box.height

instance (text : List Glyph) (f : ParsedFont) (box : LayoutBox) (S : ℤ) :
    Decidable (fitsProp text f box S) := by
  unfold fitsProp; infer_instance

/-- Boolean form of `fitsProp`, used by the solver's scan. -/
def fitsAt (text : List Glyph) (f : ParsedFont) (box : LayoutBox) (S : ℤ) : Bool :=
  decide (fitsProp text f box S)

/-- Downward scan: try `lo + n`, `lo + n - 1`, …, `lo`, returning the first
(= largest) candidate satisfying `p`. -/
def scanDown (p : ℤ → Bool) (lo : ℤ) : ℕ → Option ℤ
  | 0 => if p lo then some lo else none
  | n + 1 => if p (lo + (n + 1)) then some (lo + (n + 1)) else scanDown p lo n

set_option linter.unusedVariables false in
/-- Modelled from the spec (Dynamic Size Solver):
`fit(text, font, box, bounds, startingSize?) -> FittingResult`. Rejects
malformed input (negative bounds, min>max, negative box dimensions) before
any search; otherwise returns the largest size in `[bounds.min, bounds.max]`
whose wrapped block height fits the box, or `bounds.min` with `overflow=true`
when no size fits. The spec fixes the contract as "largest fitting size"
independently of the search order, so `startingSize` cannot influence the
result and the model scans downward from `bounds.max`. -/
def fit (text : List Glyph) (f : ParsedFont) (box : LayoutBox) (bounds : FontSizeBounds)
    (startingSize : Option ℤ) : Except FitError FittingResult :=
  if bounds.min < 0 ∨ bounds.max < bounds.min ∨ box.width < 0 ∨ box.height < 0 then
    .error .invalidBounds
  else
    match scanDown (fun S => fitsAt text f box S) bounds.min (bounds.max - bounds.min).toNat with
    | some S => .ok ⟨S, lineCountAt text f box (S : ℚ), false⟩
    | none => .ok ⟨bounds.min, lineCountAt text f box (bounds.min : ℚ), true⟩

/-- The spec's valid-input condition for the solver: non-negative bounds with
`min ≤ max`, and non-negative box dimensions. -/
def validInput (box : LayoutBox) (bounds : FontSizeBounds) : Prop :=
  0 ≤ bounds.min ∧ bounds.min ≤ bounds.max ∧ 0 ≤ box.width ∧ 0 ≤ box.height

instance (box : LayoutBox) (bounds : FontSizeBounds) : Decidable (validInput box bounds) := by
  unfold validInput; infer_instance

/-- Bounded integer-interval quantifiers are decidable, so that concrete
no-size-fits hypotheses can be checked by evaluation. -/
instance decidableIntBall (a b : ℤ) (P : ℤ → Prop) [DecidablePred P] :
    Decidable (∀ S : ℤ, a ≤ S → S ≤ b → P S) :=
  decidable_of_iff (∀ S ∈ Finset.Icc a b, P S) (by simp [Finset.mem_Icc])

/-- The scenario font from the spec (§8): ascent/descent/lineGap/unitsPerEm =
800/200/0/1000, every glyph of "Hello" advancing 500 font units. -/
def scenarioFont : ParsedFont :=
  { unitsPerEm := 1000, ascent := 800, descent := 200, lineGap := 0,
    advanceWidths := [(72, 500), (101, 500), (108, 500), (111, 500)] }

/-- The scenario box from the spec (§8): 200×50 units, lineHeight 1, no
character spacing. -/
def scenarioBox : LayoutBox :=
  { width := 200, height := 50, lineHeightMultiplier := 1, characterSpacing := 0 }

/-- The glyph string "Hello". -/
def scenarioText : List Glyph := [72, 101, 108, 108, 111]

/-- A box too short for any size of the scenario text, for the no-fit cases. -/
def tinyBox : LayoutBox :=
  { width := 200, height := 1, lineHeightMultiplier := 1, characterSpacing := 0 }

/-- The vertical alignment modes of the schema. -/
inductive VerticalAlignment where
  | top : VerticalAlignment
  | middle : VerticalAlignment
  | bottom : VerticalAlignment
  deriving DecidableEq, Repr

/-- Modelled from the spec: `VerticalAdjustment` — topOffset, bottomOffset. -/
structure VerticalAdjustment where
  topOffset : ℚ
  bottomOffset : ℚ
  deriving DecidableEq, Repr

/-- Modelled from the spec: the discrepancy between the preview renderer's
line-box height and the document renderer's ascent-only anchor height,
`delta = (ascent+descent+lineGap)*fontSize/unitsPerEm*lineHeightMultiplier
- ascent*fontSize/unitsPerEm`. -/
def verticalDelta (f : ParsedFont) (fontSize lineHeightMultiplier : ℚ) : ℚ :=
  scaledValue (f.ascent + f.descent + f.lineGap) fontSize f.unitsPerEm * lineHeightMultiplier -
    scaledValue f.ascent fontSize f.unitsPerEm

/-- Modelled from the spec (Vertical Offset Calculator,
`getBrowserVerticalFontAdjustments` in `helper.js`): for top alignment the
top offset absorbs the whole delta, for bottom alignment the bottom offset
does, and for middle alignment the delta splits between both. -/
def getBrowserVerticalFontAdjustments (f : ParsedFont)
    (fontSize lineHeightMultiplier : ℚ) (va : VerticalAlignment) : VerticalAdjustment :=
  let delta := verticalDelta f fontSize lineHeightMultiplier
  match va with
  | .top => ⟨delta, 0⟩
  | .bottom => ⟨0, delta⟩
  | .middle => ⟨delta / 2, delta / 2⟩

/-- Fonts are identified by their logical descriptor name. -/
abbrev FontName := String

/-- Modelled from the spec: the font-binary provider supplying named
descriptors; parsing a descriptor's bytes yields its `ParsedFont`, or
nothing on corrupt/unsupported bytes. -/
structure FontProvider where
  parse : FontName → Option ParsedFont

/-- Modelled from the spec: the caller-owned per-session cache, keyed by
descriptor name. -/
abbrev FontCache := List (FontName × ParsedFont)

/-- Modelled from the spec (Font Repository & Cache, `getFontKitFont` in
`helper.js`): `resolveFont(name, cache)` — a cache hit returns the cached
instance and leaves the cache unchanged; a miss parses the named descriptor
and inserts the result; corrupt/unsupported bytes fail with FontLoadError. -/
def resolveFont (P : FontProvider) (name : FontName) (cache : FontCache) :
    Except FitError (ParsedFont × FontCache) :=
  match cache.lookup name with
  | some f => .ok (f, cache)
  | none =>
    match P.parse name with
    | some f => .ok (f, (name, f) :: cache)
    | none => .error .fontLoadError

/-- Cache well-formedness: every cached entry is the parse of its own key's
descriptor, so a key can never resolve to a different font's metrics. -/
def CacheWF (P : FontProvider) (cache : FontCache) : Prop :=
  ∀ n f, cache.lookup n = some f → P.parse n = some f

/-- The schema configuration fields of the text plugin that feed the solver
and the offset calculator (box geometry and bounds stand in for the schema's
width/height/fontSize limits). -/
structure TextSchemaModel where
  dynamicFontSize : Bool
  fontSize : Option ℚ
  lineHeight : Option ℚ
  verticalAlignment : Option VerticalAlignment
  box : LayoutBox
  bounds : FontSizeBounds
  deriving DecidableEq, Repr

/-- Modelled from the spec: `calculateDynamicFontSize` (in `helper.js`) is the
solver entry point `uiRender` calls; it runs `fit` on the schema's box and
bounds and yields the chosen size. -/
def calculateDynamicFontSize (schema : TextSchemaModel) (f : ParsedFont)
    (value : List Glyph) (startingFontSize : Option ℤ) : Except FitError ℤ :=
  (fit value f schema.box schema.bounds startingFontSize).map (·.fontSize)

/-- Modelled from the spec: the documented default font size from
`constants.js` (not among the provided sources); its value is immaterial to
the claims. -/
def DEFAULT_FONT_SIZE : ℚ := 13

/-- From `uiRender` (src/unnamed/part_000, lines 66–75): the local
`dynamicFontSize` is computed only when `schema.dynamicFontSize` is set and
the value is non-empty; the first call passes `startingFontSize` as the still
undefined local, i.e. none. -/
def uiDynamicFontSize (schema : TextSchemaModel) (f : ParsedFont)
    (value : List Glyph) : Except FitError (Option ℤ) :=
  if schema.dynamicFontSize ∧ value ≠ [] then
    (calculateDynamicFontSize schema f value none).map some
  else
    .ok none

/-- From `uiRender` (src/unnamed/part_000, line 82): the font size passed to
`getBrowserVerticalFontAdjustments`, i.e.
`dynamicFontSize ?? schema.fontSize ?? DEFAULT_FONT_SIZE`. -/
def adjustmentFontSizeArg (dynamicFontSize : Option ℤ) (schema : TextSchemaModel) : ℚ :=
  ((dynamicFontSize.map (fun z => (z : ℚ))).getD (schema.fontSize.getD DEFAULT_FONT_SIZE))

/-- From `uiRender` (src/unnamed/part_000, line 117): the font size written
into the text block's style, i.e.
`dynamicFontSize ?? schema.fontSize ?? DEFAULT_FONT_SIZE` (in pt). -/
def textBlockStyleFontSize (dynamicFontSize : Option ℤ) (schema : TextSchemaModel) : ℚ :=
  ((dynamicFontSize.map (fun z => (z : ℚ))).getD (schema.fontSize.getD DEFAULT_FONT_SIZE))

/-- The state of one editable field: the text block's current content, the
number of recomputation callbacks scheduled (via zero-delay `setTimeout`) but
not yet run, and the font size last written to the block's style. -/
structure EditorState where
  text : List Glyph
  pending : ℕ
  appliedFontSize : Option ℤ
  deriving DecidableEq, Repr

/-- An event of the single-threaded editor loop: a keypress (the block's
content has changed to `newText`) or the event loop running one scheduled
recomputation callback. -/
inductive EditorEvent where
  | keypress (newText : List Glyph) : EditorEvent
  | runTask : EditorEvent
  deriving DecidableEq, Repr

/-- From the `uiRender` keypress handler (src/unnamed/part_000, lines
143–159): a keypress leaves the new text in the block and schedules one more
recomputation callback with `setTimeout(..., 0)`, cancelling nothing; a
callback, when run, reads the block's current text, returns early when
dynamic sizing is off or the text is empty, and otherwise recomputes the font
size (with the closure's original `dynamicFontSize` as starting size) and
writes it to the block's style. -/
def stepEvent (schema : TextSchemaModel) (f : ParsedFont) (s0 : Option ℤ)
    (st : EditorState) : EditorEvent → EditorState
  | .keypress t => { st with text := t, pending := st.pending + 1 }
  | .runTask =>
    match st.pending with
    | 0 => st
    | k + 1 =>
      let st' : EditorState := { st with pending := k }
      if schema.dynamicFontSize = false ∨ st.text = [] then st'
      else
        match calculateDynamicFontSize schema f st.text s0 with
        | .ok sz => { st' with appliedFontSize := some sz }
        | .error _ => st'

/-- Folding the editor step over a list of events. -/
def runEvents (schema : TextSchemaModel) (f : ParsedFont) (s0 : Option ℤ)
    (st : EditorState) (events : List EditorEvent) : EditorState :=
  events.foldl (stepEvent schema f s0) st

/-- A schema with dynamic sizing enabled over the scenario geometry. -/
def scenarioSchema : TextSchemaModel :=
  { dynamicFontSize := true, fontSize := some 11, lineHeight := some 1,
    verticalAlignment := some .top, box := scenarioBox, bounds := ⟨4, 20⟩ }

/-- A two-name font provider for cache witnesses: "A" and "B" parse to fonts
with different metrics, every other name fails to parse. -/
def witnessProvider : FontProvider :=
  { parse := fun n =>
      if n = "A" then some scenarioFont
      else if n = "B" then some { scenarioFont with unitsPerEm := 2048 }
      else none }

theorem scanDown_eq_some {p : ℤ → Bool} {lo : ℤ} {n : ℕ} {s : ℤ}
    (h : scanDown p lo n = some s) :
    p s = true ∧ lo ≤ s ∧ s ≤ lo + n ∧
      ∀ m : ℤ, lo ≤ m → m ≤ lo + n → p m = true → m ≤ s := by
  induction n with
  | zero =>
    by_cases hp : p lo
    · simp [scanDown, hp] at h
      subst h
      exact ⟨hp, le_refl _, by omega, fun m h1 h2 _ => by omega⟩
    · simp [scanDown, hp] at h
  | succ k ih =>
    by_cases hp : p (lo + (k + 1))
    · simp [scanDown, hp] at h
      subst h
      refine ⟨hp, by omega, by push_cast; omega, fun m h1 h2 _ => by push_cast at h2 ⊢; omega⟩
    · simp [scanDown, hp] at h
      obtain ⟨hps, hlo, hhi, hmax⟩ := ih h
      refine ⟨hps, hlo, by push_cast; omega, fun m h1 h2 hm => ?_⟩
      rcases lt_or_le (lo + k : ℤ) m with hgt | hle
      · exfalso
        have : m = lo + (k + 1) := by push_cast at h2 ⊢; omega
        rw [this] at hm
        exact hp hm
      · exact hmax m h1 hle hm

theorem scanDown_eq_none {p : ℤ → Bool} {lo : ℤ} {n : ℕ}
    (h : scanDown p lo n = none) :
    ∀ m : ℤ, lo ≤ m → m ≤ lo + n → p m = false := by
  induction n with
  | zero =>
    by_cases hp : p lo
    · simp [scanDown, hp] at h
    · intro m h1 h2
      have : m = lo := by omega
      rw [this]
      exact Bool.not_eq_true _ |>.mp hp
  | succ k ih =>
    by_cases hp : p (lo + (k + 1))
    · simp [scanDown, hp] at h
    · simp [scanDown, hp] at h
      intro m h1 h2
      rcases lt_or_le (lo + k : ℤ) m with hgt | hle
      · have : m = lo + (k + 1) := by push_cast at h2 ⊢; omega
        rw [this]
        exact Bool.not_eq_true _ |>.mp hp
      · exact ih h m h1 hle

/-- When the topmost candidate satisfies `p`, the scan returns it at once. -/
theorem scanDown_top {p : ℤ → Bool} {lo : ℤ} {n : ℕ} (h : p (lo + n) = true) :
    scanDown p lo n = some (lo + n) := by
  cases n with
  | zero => simp at h; simp [scanDown, h]
  | succ k => push_cast at h; simp [scanDown, h]

/-- On valid input the solver is the downward scan over `[min, max]`. -/
theorem fit_eq_scan {text : List Glyph} {f : ParsedFont} {box : LayoutBox}
    {bounds : FontSizeBounds} {s0 : Option ℤ} (hv : validInput box bounds) :
    fit text f box bounds s0 =
      match scanDown (fun S => fitsAt text f box S) bounds.min
          (bounds.max - bounds.min).toNat with
      | some S => .ok ⟨S, lineCountAt text f box (S : ℚ), false⟩
      | none => .ok ⟨bounds.min, lineCountAt text f box (bounds.min : ℚ), true⟩ := by
  obtain ⟨h1, h2, h3, h4⟩ := hv
  unfold fit
  rw [if_neg]
  simp only [not_or, not_lt]
  exact ⟨h1, h2, h3, h4⟩

/-- On valid input the scan covers exactly the interval `[min, max]`. -/
theorem min_add_range {bounds : FontSizeBounds} (h : bounds.min ≤ bounds.max) :
    bounds.min + ((bounds.max - bounds.min).toNat : ℤ) = bounds.max := by
  omega

theorem fitsAt_eq_true_iff {text : List Glyph} {f : ParsedFont} {box : LayoutBox} {S : ℤ} :
    fitsAt text f box S = true ↔ fitsProp text f box S := by
  simp [fitsAt]

/-- The spec's §8 scenario: "Hello" in a 200×50 box with bounds [4,20] fits on
a single line at size 20 with no overflow. -/
theorem fit_scenario_hello : fit scenarioText scenarioFont scenarioBox ⟨4, 20⟩ none =
    .ok ⟨20, 1, false⟩ := by rfl

/-- C1: for every text, box, and valid bounds, if any size in
`[bounds.min, bounds.max]` makes the wrapped text's total block height
(`lineCount * S * lineHeightMultiplier`) fit within `box.height`, then the
Dynamic Size Solver returns the largest such size. -/
theorem fit_returns_largest_fitting_size (text : List Glyph) (f : ParsedFont)
    (box : LayoutBox) (bounds : FontSizeBounds) (s0 : Option ℤ)
    (hv : validInput box bounds)
    (hex : ∃ S : ℤ, bounds.min ≤ S ∧ S ≤ bounds.max ∧ fitsProp text f box S) :
    ∃ r : FittingResult, fit text f box bounds s0 = .ok r ∧
      r.overflow = false ∧ fitsProp text f box r.fontSize ∧
      bounds.min ≤ r.fontSize ∧ r.fontSize ≤ bounds.max ∧
      ∀ S : ℤ, bounds.min ≤ S → S ≤ bounds.max → fitsProp text f box S →
        S ≤ r.fontSize := by
  obtain ⟨S0, hS0lo, hS0hi, hS0fit⟩ := hex
  have hrange := min_add_range hv.2.1
  rw [fit_eq_scan hv]
  cases hscan : scanDown (fun S => fitsAt text f box S) bounds.min
      (bounds.max - bounds.min).toNat with
  | none =>
    exfalso
    have hfalse := scanDown_eq_none hscan S0 hS0lo (by omega)
    rw [fitsAt_eq_true_iff.mpr hS0fit] at hfalse
    exact Bool.true_eq_false ▸ hfalse
  | some S =>
    obtain ⟨hfit, hlo, hhi, hmax⟩ := scanDown_eq_some hscan
    refine ⟨_, rfl, rfl, fitsAt_eq_true_iff.mp hfit, hlo,
      show S ≤ bounds.max by omega, fun T h1 h2 hT => ?_⟩
    exact hmax T h1 (by omega) (fitsAt_eq_true_iff.mpr hT)

/-- Witness for C1 at the spec's §8 scenario: size 20 fits, and the solver
indeed returns a largest fitting size. -/
theorem fit_returns_largest_fitting_size_witness :
    ∃ r : FittingResult, fit scenarioText scenarioFont scenarioBox ⟨4, 20⟩ none = .ok r ∧
      r.overflow = false ∧ fitsProp scenarioText scenarioFont scenarioBox r.fontSize ∧
      (4 : ℤ) ≤ r.fontSize ∧ r.fontSize ≤ 20 ∧
      ∀ S : ℤ, 4 ≤ S → S ≤ 20 → fitsProp scenarioText scenarioFont scenarioBox S →
        S ≤ r.fontSize :=
  fit_returns_largest_fitting_size scenarioText scenarioFont scenarioBox ⟨4, 20⟩ none
    (by decide) ⟨20, by decide, by decide, by decide⟩

/-- A successful solver run presupposes valid input: the malformed-input
check precedes the search. -/
theorem valid_of_fit_ok {text : List Glyph} {f : ParsedFont} {box : LayoutBox}
    {bounds : FontSizeBounds} {s0 : Option ℤ} {r : FittingResult}
    (h : fit text f box bounds s0 = .ok r) : validInput box bounds := by
  unfold fit at h
  by_cases hg : bounds.min < 0 ∨ bounds.max < bounds.min ∨ box.width < 0 ∨ box.height < 0
  · rw [if_pos hg] at h
    exact Except.noConfusion h
  · simp only [not_or, not_lt] at hg
    exact ⟨hg.1, hg.2.1, hg.2.2.1, hg.2.2.2⟩

/-- C2: on every valid input the Dynamic Size Solver returns a size within
`[bounds.min, bounds.max]`, and no input whatsoever yields a size outside
the bounds (malformed input produces an error, not a size). -/
theorem fit_size_within_bounds (text : List Glyph) (f : ParsedFont)
    (box : LayoutBox) (bounds : FontSizeBounds) (s0 : Option ℤ) :
    (validInput box bounds →
      ∃ r : FittingResult, fit text f box bounds s0 = .ok r ∧
        bounds.min ≤ r.fontSize ∧ r.fontSize ≤ bounds.max) ∧
    (∀ r : FittingResult, fit text f box bounds s0 = .ok r →
      bounds.min ≤ r.fontSize ∧ r.fontSize ≤ bounds.max) := by
  have hmain : ∀ (hv : validInput box bounds),
      ∃ r : FittingResult, fit text f box bounds s0 = .ok r ∧
        bounds.min ≤ r.fontSize ∧ r.fontSize ≤ bounds.max := by
    intro hv
    have hrange := min_add_range hv.2.1
    rw [fit_eq_scan hv]
    cases hscan : scanDown (fun S => fitsAt text f box S) bounds.min
        (bounds.max - bounds.min).toNat with
    | none => exact ⟨_, rfl, le_refl _, hv.2.1⟩
    | some S =>
      obtain ⟨_, hlo, hhi, _⟩ := scanDown_eq_some hscan
      exact ⟨_, rfl, hlo, show S ≤ bounds.max by omega⟩
  refine ⟨hmain, fun r hr => ?_⟩
  obtain ⟨r', hr', hlo', hhi'⟩ := hmain (valid_of_fit_ok hr)
  rw [hr] at hr'
  cases hr'
  exact ⟨hlo', hhi'⟩

/-- Witness for C2 at the spec's §8 scenario. -/
theorem fit_size_within_bounds_witness :
    ∃ r : FittingResult, fit scenarioText scenarioFont scenarioBox ⟨4, 20⟩ none = .ok r ∧
      (4 : ℤ) ≤ r.fontSize ∧ r.fontSize ≤ 20 :=
  (fit_size_within_bounds scenarioText scenarioFont scenarioBox ⟨4, 20⟩ none).1 (by decide)

/-- C3: overflow is a normal result — when no size in range fits, the solver
returns `bounds.min` with `overflow = true`; it errors exactly on malformed
input (negative bounds, min > max, negative box dimensions), never for
overflow. -/
theorem fit_overflow_is_not_an_error (text : List Glyph) (f : ParsedFont)
    (box : LayoutBox) (bounds : FontSizeBounds) (s0 : Option ℤ) :
    (¬ validInput box bounds → fit text f box bounds s0 = .error .invalidBounds) ∧
    (∀ e : FitError, fit text f box bounds s0 = .error e → ¬ validInput box bounds) ∧
    (validInput box bounds →
      (∀ S : ℤ, bounds.min ≤ S → S ≤ bounds.max → ¬ fitsProp text f box S) →
      fit text f box bounds s0 =
        .ok ⟨bounds.min, lineCountAt text f box (bounds.min : ℚ), true⟩) := by
  refine ⟨?_, ?_, ?_⟩
  · intro hv
    unfold fit
    rw [if_pos]
    unfold validInput at hv
    push_neg at hv
    by_cases h1 : (0 : ℤ) ≤ bounds.min
    · by_cases h2 : bounds.min ≤ bounds.max
      · by_cases h3 : (0 : ℚ) ≤ box.width
        · exact Or.inr (Or.inr (Or.inr (hv h1 h2 h3)))
        · exact Or.inr (Or.inr (Or.inl (not_le.mp h3)))
      · exact Or.inr (Or.inl (not_le.mp h2))
    · exact Or.inl (not_le.mp h1)
  · intro e he hv
    rw [fit_eq_scan hv] at he
    cases hscan : scanDown (fun S => fitsAt text f box S) bounds.min
        (bounds.max - bounds.min).toNat with
    | none => rw [hscan] at he; exact Except.noConfusion he
    | some S => rw [hscan] at he; exact Except.noConfusion he
  · intro hv hnofit
    have hrange := min_add_range hv.2.1
    rw [fit_eq_scan hv]
    cases hscan : scanDown (fun S => fitsAt text f box S) bounds.min
        (bounds.max - bounds.min).toNat with
    | none => rfl
    | some S =>
      exfalso
      obtain ⟨hfit, hlo, hhi, _⟩ := scanDown_eq_some hscan
      exact hnofit S hlo (by omega) (fitsAt_eq_true_iff.mp hfit)

/-- Witness for C3: inverted bounds are rejected with an error, and a box too
short for any size in range yields `bounds.min` with `overflow = true`. -/
theorem fit_overflow_is_not_an_error_witness :
    fit scenarioText scenarioFont scenarioBox ⟨20, 4⟩ none = .error .invalidBounds ∧
    fit scenarioText scenarioFont tinyBox ⟨4, 20⟩ none =
      .ok ⟨4, lineCountAt scenarioText scenarioFont tinyBox (4 : ℚ), true⟩ :=
  ⟨(fit_overflow_is_not_an_error scenarioText scenarioFont scenarioBox ⟨20, 4⟩ none).1
     (by decide),
   (fit_overflow_is_not_an_error scenarioText scenarioFont tinyBox ⟨4, 20⟩ none).2.2
     (by decide) (by decide)⟩

/-- C4: for every font, box, and valid bounds, the solver applied to empty
text returns `bounds.max` (no line, no overflow). -/
theorem fit_empty_text_returns_max (f : ParsedFont) (box : LayoutBox)
    (bounds : FontSizeBounds) (s0 : Option ℤ) (hv : validInput box bounds) :
    fit [] f box bounds s0 = .ok ⟨bounds.max, 0, false⟩ := by
  have hrange := min_add_range hv.2.1
  rw [fit_eq_scan hv]
  have hp : fitsAt [] f box (bounds.min + ((bounds.max - bounds.min).toNat : ℤ)) = true := by
    rw [fitsAt_eq_true_iff]
    unfold fitsProp lineCountAt
    simpa using hv.2.2.2
  rw [scanDown_top hp]
  rw [hrange]
  rfl

/-- Witness for C4 at the spec's §8 scenario geometry. -/
theorem fit_empty_text_returns_max_witness :
    fit [] scenarioFont scenarioBox ⟨4, 20⟩ none = .ok ⟨20, 0, false⟩ :=
  fit_empty_text_returns_max scenarioFont scenarioBox ⟨4, 20⟩ none (by decide)

/-- C5: monotonicity in box height — on boxes identical except for a larger
height, the solver returns a size at least as large. -/
theorem fit_monotone_in_box_height (text : List Glyph) (f : ParsedFont)
    (box : LayoutBox) (bounds : FontSizeBounds) (s0 : Option ℤ) (h2 : ℚ)
    (hv : validInput box bounds) (hh : box.height ≤ h2) :
    ∃ r1 r2 : FittingResult, fit text f box bounds s0 = .ok r1 ∧
      fit text f { box with height := h2 } bounds s0 = .ok r2 ∧
      r1.fontSize ≤ r2.fontSize := by
  have hv2 : validInput { box with height := h2 } bounds :=
    ⟨hv.1, hv.2.1, hv.2.2.1, le_trans hv.2.2.2 hh⟩
  have hrange := min_add_range hv.2.1
  have hmono : ∀ S : ℤ, fitsAt text f box S = true →
      fitsAt text f { box with height := h2 } S = true := by
    intro S hS
    rw [fitsAt_eq_true_iff] at hS ⊢
    exact le_trans hS hh
  rw [fit_eq_scan hv, fit_eq_scan hv2]
  cases hscan1 : scanDown (fun S => fitsAt text f box S) bounds.min
      (bounds.max - bounds.min).toNat with
  | none =>
    cases hscan2 : scanDown (fun S => fitsAt text f { box with height := h2 } S)
        bounds.min (bounds.max - bounds.min).toNat with
    | none => exact ⟨_, _, rfl, rfl, le_refl _⟩
    | some S2 =>
      obtain ⟨_, hlo2, _, _⟩ := scanDown_eq_some hscan2
      exact ⟨_, _, rfl, rfl, hlo2⟩
  | some S1 =>
    obtain ⟨hfit1, hlo1, hhi1, _⟩ := scanDown_eq_some hscan1
    cases hscan2 : scanDown (fun S => fitsAt text f { box with height := h2 } S)
        bounds.min (bounds.max - bounds.min).toNat with
    | none =>
      exfalso
      have hfalse := scanDown_eq_none hscan2 S1 hlo1 hhi1
      rw [hmono S1 hfit1] at hfalse
      exact Bool.true_eq_false ▸ hfalse
    | some S2 =>
      obtain ⟨_, _, _, hmax2⟩ := scanDown_eq_some hscan2
      exact ⟨_, _, rfl, rfl, hmax2 S1 hlo1 hhi1 (hmono S1 hfit1)⟩

/-- Witness for C5: growing the scenario box's height from 50 to 100 does not
decrease the chosen size. -/
theorem fit_monotone_in_box_height_witness :
    ∃ r1 r2 : FittingResult,
      fit scenarioText scenarioFont scenarioBox ⟨4, 20⟩ none = .ok r1 ∧
      fit scenarioText scenarioFont { scenarioBox with height := 100 } ⟨4, 20⟩ none = .ok r2 ∧
      r1.fontSize ≤ r2.fontSize :=
  fit_monotone_in_box_height scenarioText scenarioFont scenarioBox ⟨4, 20⟩ none 100
    (by decide) (by decide)

/-- C6: determinism — the Dynamic Size Solver and the Vertical Offset
Calculator are pure state-free functions of their inputs, so two runs on
identical inputs yield the identical size and the identical
(topOffset, bottomOffset) pair. -/
theorem solver_and_adjustments_deterministic (text : List Glyph) (f : ParsedFont)
    (box : LayoutBox) (bounds : FontSizeBounds) (s0 : Option ℤ)
    (fontSize lineHeightMultiplier : ℚ) (va : VerticalAlignment) :
    fit text f box bounds s0 = fit text f box bounds s0 ∧
    getBrowserVerticalFontAdjustments f fontSize lineHeightMultiplier va =
      getBrowserVerticalFontAdjustments f fontSize lineHeightMultiplier va :=
  ⟨rfl, rfl⟩

/-- C7: with middle vertical alignment the two offsets sum exactly to the
line-box/anchor discrepancy `delta`, and both are non-negative whenever
`delta` is positive. -/
theorem middle_alignment_offsets (f : ParsedFont) (fontSize lineHeightMultiplier : ℚ) :
    (getBrowserVerticalFontAdjustments f fontSize lineHeightMultiplier .middle).topOffset +
      (getBrowserVerticalFontAdjustments f fontSize lineHeightMultiplier .middle).bottomOffset =
      verticalDelta f fontSize lineHeightMultiplier ∧
    (0 < verticalDelta f fontSize lineHeightMultiplier →
      0 ≤ (getBrowserVerticalFontAdjustments f fontSize lineHeightMultiplier .middle).topOffset ∧
      0 ≤ (getBrowserVerticalFontAdjustments f fontSize lineHeightMultiplier .middle).bottomOffset) := by
  constructor
  · show verticalDelta f fontSize lineHeightMultiplier / 2 +
      verticalDelta f fontSize lineHeightMultiplier / 2 = _
    ring
  · intro h
    constructor
    · show (0 : ℚ) ≤ verticalDelta f fontSize lineHeightMultiplier / 2
      linarith
    · show (0 : ℚ) ≤ verticalDelta f fontSize lineHeightMultiplier / 2
      linarith

/-- Witness for C7: with the scenario font at size 20 and line height 2 the
delta is 24 > 0 and both middle offsets are non-negative. -/
theorem middle_alignment_offsets_witness :
    (0 : ℚ) < verticalDelta scenarioFont 20 2 ∧
    0 ≤ (getBrowserVerticalFontAdjustments scenarioFont 20 2 .middle).topOffset ∧
    0 ≤ (getBrowserVerticalFontAdjustments scenarioFont 20 2 .middle).bottomOffset :=
  ⟨by decide, ((middle_alignment_offsets scenarioFont 20 2).2 (by decide)).1,
   ((middle_alignment_offsets scenarioFont 20 2).2 (by decide)).2⟩

/-- C8: cache correctness of the Font Repository — a second resolution of the
same name is a cache hit returning the identical ParsedFont and leaving the
cache unchanged; on a well-formed cache a resolution preserves
well-formedness and always returns the metrics the provider assigns to that
very name; and two distinct names whose descriptors parse to distinct
metrics never resolve to the same metrics. -/
theorem resolveFont_cache_correct (P : FontProvider) :
    (∀ (n : FontName) (c : FontCache) (f : ParsedFont) (c' : FontCache),
      resolveFont P n c = .ok (f, c') → resolveFont P n c' = .ok (f, c')) ∧
    (∀ (n : FontName) (c : FontCache) (f : ParsedFont) (c' : FontCache),
      CacheWF P c → resolveFont P n c = .ok (f, c') →
        CacheWF P c' ∧ P.parse n = some f) ∧
    (∀ (n₁ n₂ : FontName) (c₁ c₂ : FontCache) (f₁ f₂ : ParsedFont) (c₁' c₂' : FontCache),
      CacheWF P c₁ → CacheWF P c₂ → n₁ ≠ n₂ → P.parse n₁ ≠ P.parse n₂ →
      resolveFont P n₁ c₁ = .ok (f₁, c₁') → resolveFont P n₂ c₂ = .ok (f₂, c₂') →
      f₁ ≠ f₂) := by
  have hcore : ∀ (n : FontName) (c : FontCache) (f : ParsedFont) (c' : FontCache),
      resolveFont P n c = .ok (f, c') →
      (c.lookup n = some f ∧ c' = c) ∨
      (c.lookup n = none ∧ P.parse n = some f ∧ c' = (n, f) :: c) := by
    intro n c f c' h
    unfold resolveFont at h
    cases hl : c.lookup n with
    | some g =>
      rw [hl] at h
      simp only [Except.ok.injEq, Prod.mk.injEq] at h
      obtain ⟨rfl, rfl⟩ := h
      exact Or.inl ⟨rfl, rfl⟩
    | none =>
      rw [hl] at h
      cases hp : P.parse n with
      | some g =>
        rw [hp] at h
        simp only [Except.ok.injEq, Prod.mk.injEq] at h
        obtain ⟨rfl, rfl⟩ := h
        exact Or.inr ⟨rfl, rfl, rfl⟩
      | none => rw [hp] at h; exact Except.noConfusion h
  refine ⟨?_, ?_, ?_⟩
  · intro n c f c' h
    rcases hcore n c f c' h with ⟨hl, rfl⟩ | ⟨hl, hp, rfl⟩
    · unfold resolveFont
      rw [hl]
    · unfold resolveFont
      have : ((n, f) :: c).lookup n = some f := by simp [List.lookup]
      rw [this]
  · intro n c f c' hwf h
    rcases hcore n c f c' h with ⟨hl, rfl⟩ | ⟨hl, hp, rfl⟩
    · exact ⟨hwf, hwf n f hl⟩
    · refine ⟨?_, hp⟩
      intro m fm hm
      rw [List.lookup] at hm
      by_cases he : m = n
      · subst he
        simp only [beq_self_eq_true] at hm
        cases hm
        exact hp
      · have : (m == n) = false := beq_eq_false_iff_ne.mpr he
        rw [this] at hm
        exact hwf m fm hm
  · intro n₁ n₂ c₁ c₂ f₁ f₂ c₁' c₂' hwf₁ hwf₂ hnames hparse h₁ h₂ heq
    have hp₁ : P.parse n₁ = some f₁ := by
      rcases hcore n₁ c₁ f₁ c₁' h₁ with ⟨hl, _⟩ | ⟨_, hp, _⟩
      · exact hwf₁ n₁ f₁ hl
      · exact hp
    have hp₂ : P.parse n₂ = some f₂ := by
      rcases hcore n₂ c₂ f₂ c₂' h₂ with ⟨hl, _⟩ | ⟨_, hp, _⟩
      · exact hwf₂ n₂ f₂ hl
      · exact hp
    exact hparse (by rw [hp₁, hp₂, heq])

/-- Witness for C8 with a concrete two-font provider: resolving "A" on the
empty cache inserts and returns its font, the repeated resolution is a hit
returning the same instance, the updated cache stays well-formed and keyed to
"A"'s own metrics, and "A" and "B" resolve to different metrics. -/
theorem resolveFont_cache_correct_witness :
    resolveFont witnessProvider "A" [("A", scenarioFont)] =
      .ok (scenarioFont, [("A", scenarioFont)]) ∧
    (CacheWF witnessProvider [("A", scenarioFont)] ∧
      witnessProvider.parse "A" = some scenarioFont) ∧
    scenarioFont ≠ { scenarioFont with unitsPerEm := 2048 } :=
  ⟨(resolveFont_cache_correct witnessProvider).1 "A" [] scenarioFont
      [("A", scenarioFont)] (by rfl),
   (resolveFont_cache_correct witnessProvider).2.1 "A" [] scenarioFont
      [("A", scenarioFont)] (fun n f h => Option.noConfusion h) (by rfl),
   (resolveFont_cache_correct witnessProvider).2.2 "A" "B" [] []
      scenarioFont { scenarioFont with unitsPerEm := 2048 }
      [("A", scenarioFont)] [("B", { scenarioFont with unitsPerEm := 2048 })]
      (fun n f h => Option.noConfusion h) (fun n f h => Option.noConfusion h)
      (by decide) (by decide) (by rfl) (by rfl)⟩

/-- C9 as stated is false on the code: the keypress handler schedules each
recomputation with a zero-delay `setTimeout` and cancels nothing, so after
two consecutive keypresses two recomputations are queued, contradicting
"recomputations are never queued". -/
theorem keypress_recomputation_queues_counterexample :
    (runEvents scenarioSchema scenarioFont none ⟨[], 0, none⟩
      [.keypress [72], .keypress [72, 101]]).pending = 2 ∧
    ¬ (runEvents scenarioSchema scenarioFont none ⟨[], 0, none⟩
      [.keypress [72], .keypress [72, 101]]).pending ≤ 1 := by
  constructor
  · rfl
  · intro h
    exact absurd h (by decide)

/-- One scheduled recomputation callback, run with at least one still queued,
reads the block's current text and applies the size computed from it. -/
theorem stepEvent_runTask (schema : TextSchemaModel) (f : ParsedFont)
    (s0 : Option ℤ) (hdyn : schema.dynamicFontSize = true) {t : List Glyph}
    (ht : t ≠ []) {sz : ℤ} (hsz : calculateDynamicFontSize schema f t s0 = .ok sz)
    (st : EditorState) (k : ℕ) (hp : st.pending = k + 1) (htx : st.text = t) :
    stepEvent schema f s0 st .runTask = ⟨t, k, some sz⟩ := by
  show (match st.pending with
    | 0 => st
    | k + 1 =>
      let st' : EditorState := { st with pending := k }
      if schema.dynamicFontSize = false ∨ st.text = [] then st'
      else
        match calculateDynamicFontSize schema f st.text s0 with
        | .ok sz => { st' with appliedFontSize := some sz }
        | .error _ => st') = ⟨t, k, some sz⟩
  rw [hp]
  show (if schema.dynamicFontSize = false ∨ st.text = [] then _
    else match calculateDynamicFontSize schema f st.text s0 with
      | .ok sz => _
      | .error _ => _) = (⟨t, k, some sz⟩ : EditorState)
  rw [if_neg (by simp [hdyn, htx, ht]), htx, hsz]

/-- Running exactly the queued callbacks, with no interleaved edit, ends with
an empty queue and the size computed from the block's current text applied. -/
theorem drain_applies_current_text (schema : TextSchemaModel) (f : ParsedFont)
    (s0 : Option ℤ) (hdyn : schema.dynamicFontSize = true) {t : List Glyph}
    (ht : t ≠ []) {sz : ℤ} (hsz : calculateDynamicFontSize schema f t s0 = .ok sz) :
    ∀ (k : ℕ) (st : EditorState), st.pending = k + 1 → st.text = t →
      runEvents schema f s0 st (List.replicate (k + 1) .runTask) = ⟨t, 0, some sz⟩ := by
  intro k
  induction k with
  | zero =>
    intro st hp htx
    rw [List.replicate_succ, List.replicate_zero]
    show stepEvent schema f s0 st .runTask = _
    exact stepEvent_runTask schema f s0 hdyn ht hsz st 0 hp htx
  | succ k ih =>
    intro st hp htx
    rw [List.replicate_succ]
    show runEvents schema f s0 (stepEvent schema f s0 st .runTask)
      (List.replicate (k + 1) .runTask) = _
    rw [stepEvent_runTask schema f s0 hdyn ht hsz st (k + 1) hp htx]
    exact ih ⟨t, k + 1, some sz⟩ rfl rfl

/-- C9 amended: recomputations are queued fire-and-forget, never cancelled;
but each queued callback reads the field's text when it runs, so after any
sequence of events ending in an edit, draining the queue applies exactly the
size computed from the latest edit's text. -/
theorem last_edit_wins_after_drain (schema : TextSchemaModel) (f : ParsedFont)
    (s0 : Option ℤ) (st : EditorState) (es : List EditorEvent) (t : List Glyph) (sz : ℤ)
    (hdyn : schema.dynamicFontSize = true) (ht : t ≠ [])
    (hsz : calculateDynamicFontSize schema f t s0 = .ok sz) :
    runEvents schema f s0 st ((es ++ [.keypress t]) ++
        List.replicate (runEvents schema f s0 st (es ++ [.keypress t])).pending .runTask) =
      ⟨t, 0, some sz⟩ := by
  have h1 : runEvents schema f s0 st (es ++ [.keypress t]) =
      ⟨t, (runEvents schema f s0 st es).pending + 1,
        (runEvents schema f s0 st es).appliedFontSize⟩ := by
    unfold runEvents
    rw [List.foldl_append]
    rfl
  have h2 : ∀ (l : List EditorEvent),
      runEvents schema f s0 st ((es ++ [.keypress t]) ++ l) =
        runEvents schema f s0 (runEvents schema f s0 st (es ++ [.keypress t])) l := by
    intro l
    unfold runEvents
    rw [List.foldl_append]
  rw [h2]
  rw [h1]
  exact drain_applies_current_text schema f s0 hdyn ht hsz
    (runEvents schema f s0 st es).pending
    ⟨t, (runEvents schema f s0 st es).pending + 1,
      (runEvents schema f s0 st es).appliedFontSize⟩ rfl rfl

/-- Witness for C9's amended statement: after an interleaved earlier edit, a
final edit to "Hello" followed by draining the queue applies size 20, the one
computed from "Hello". -/
theorem last_edit_wins_after_drain_witness :
    runEvents scenarioSchema scenarioFont none ⟨[], 0, none⟩
        (([.keypress [72]] ++ [.keypress scenarioText]) ++
          List.replicate (runEvents scenarioSchema scenarioFont none ⟨[], 0, none⟩
            ([.keypress [72]] ++ [.keypress scenarioText])).pending .runTask) =
      ⟨scenarioText, 0, some 20⟩ :=
  last_edit_wins_after_drain scenarioSchema scenarioFont none ⟨[], 0, none⟩
    [.keypress [72]] scenarioText 20 (by rfl) (by decide) (by rfl)

/-- C10: `uiRender` styles the text block with the very same font size it
passes to `getBrowserVerticalFontAdjustments` — both code sites evaluate
`dynamicFontSize ?? schema.fontSize ?? DEFAULT_FONT_SIZE`: the solver's size
when it ran, else the schema's font size, else the default. -/
theorem style_and_adjustment_use_same_font_size (dynamicFontSize : Option ℤ)
    (schema : TextSchemaModel) :
    textBlockStyleFontSize dynamicFontSize schema =
      adjustmentFontSizeArg dynamicFontSize schema ∧
    (∀ s : ℤ, dynamicFontSize = some s →
      textBlockStyleFontSize dynamicFontSize schema = (s : ℚ)) ∧
    (dynamicFontSize = none → schema.fontSize = none →
      textBlockStyleFontSize dynamicFontSize schema = DEFAULT_FONT_SIZE) ∧
    (∀ q : ℚ, dynamicFontSize = none → schema.fontSize = some q →
      textBlockStyleFontSize dynamicFontSize schema = q) := by
  refine ⟨rfl, ?_, ?_, ?_⟩
  · intro s h
    rw [h]
    rfl
  · intro h h'
    rw [h]
    show schema.fontSize.getD DEFAULT_FONT_SIZE = DEFAULT_FONT_SIZE
    rw [h']
    rfl
  · intro q h h'
    rw [h]
    show schema.fontSize.getD DEFAULT_FONT_SIZE = q
    rw [h']
    rfl

/-- Witness for C10: when the solver ran and returned 20 both sites show 20;
when it did not run both show the schema's own font size. -/
theorem style_and_adjustment_use_same_font_size_witness :
    textBlockStyleFontSize (some 20) scenarioSchema =
      adjustmentFontSizeArg (some 20) scenarioSchema ∧
    textBlockStyleFontSize (some 20) scenarioSchema = (20 : ℚ) ∧
    textBlockStyleFontSize none scenarioSchema = (11 : ℚ) :=
  ⟨(style_and_adjustment_use_same_font_size (some 20) scenarioSchema).1,
   (style_and_adjustment_use_same_font_size (some 20) scenarioSchema).2.1 20 rfl,
   (style_and_adjustment_use_same_font_size none scenarioSchema).2.2.2 11 rfl rfl⟩

end Pdfme
